import Mathlib

/-!
# Verification of the medical-mcp data-acquisition layer

Shallow embedding of `src/utils.ts` of the medical-mcp repository: the
retry/backoff controller (`retryFDAApiCall`), the acquisition operations
built on it (`searchDrugs`, `searchAdverseEvents`, ...), the PubMed
record extractor (`searchPubMedArticles`) and the Google Scholar
scraping session (`searchGoogleScholar`).

HTTP calls and browser-automation steps are modelled by environments
that supply the outcome of each remote interaction; JavaScript regular
expressions are embedded as executable leftmost-match scanners over
`List Char`; each operation returns a trace recording its result, the
backoff delays it inserted and how many times it invoked its remote
call.
-/

set_option linter.unusedVariables false
set_option maxRecDepth 8000

namespace MedicalMcp

/-- A JavaScript error as observed by `retryFDAApiCall` and the catch
blocks of `utils.ts`: an optional HTTP `status` field (absent for
DNS/connection-level failures) and a message. -/
structure Err where
  status : Option Nat
  msg : String
deriving DecidableEq, Repr

/-- The guard `error.status && error.status < 500 && error.status !== 429`
from `retryFDAApiCall`: errors satisfying it are re-raised without retry.
A missing status, or the JavaScript-falsy status `0`, fails the guard. -/
def nonRetryable (e : Err) : Bool :=
  match e.status with
  | none => false
  | some s => s != 0 && decide (s < 500) && s != 429

/-- Observable trace of an operation: its result, the backoff delays it
inserted (in order), and how many times it invoked its remote call. -/
structure Tr (α : Type) where
  result : α
  delays : List Nat
  calls : Nat
deriving Repr

/-- The `for (let attempt = 1; attempt <= maxRetries; attempt++)` loop of
`retryFDAApiCall`, entered at loop counter `attempt`.  `op n` is the
outcome of the `n`-th invocation of the wrapped remote operation.  The
result error is an `Option Err` because when the loop body never runs
(`maxRetries = 0`) the function throws its never-assigned `lastError`,
i.e. the JavaScript `undefined`, modelled as `none`. -/
def retryLoopAux (op : Nat → Except Err α) (maxRetries baseDelay : Nat) :
    Nat → Nat → Tr (Except (Option Err) α)
  | 0, _ => ⟨.error none, [], 0⟩
  | Nat.succ fuel, attempt =>
    if attempt ≤ maxRetries then
      match op attempt with
      | .ok v => ⟨.ok v, [], 1⟩
      | .error e =>
        if nonRetryable e then ⟨.error (some e), [], 1⟩
        else if attempt = maxRetries then ⟨.error (some e), [], 1⟩
        else
          let r := retryLoopAux op maxRetries baseDelay fuel (attempt + 1)
          ⟨r.result, baseDelay * 2 ^ (attempt - 1) :: r.delays, r.calls + 1⟩
    else ⟨.error none, [], 0⟩

/-- The retry loop entered at loop counter `attempt`; the fuel
`maxRetries + 1 - attempt` is exactly the number of remaining loop
iterations, so the fuel-indexed runner above is the loop itself. -/
def retryLoop (op : Nat → Except Err α) (maxRetries baseDelay attempt : Nat) :
    Tr (Except (Option Err) α) :=
  retryLoopAux op maxRetries baseDelay (maxRetries + 1 - attempt) attempt

lemma retryLoop_unfold (op : Nat → Except Err α) (mR bD a : Nat) :
    retryLoop op mR bD a =
      if a ≤ mR then
        match op a with
        | .ok v => ⟨.ok v, [], 1⟩
        | .error e =>
          if nonRetryable e then ⟨.error (some e), [], 1⟩
          else if a = mR then ⟨.error (some e), [], 1⟩
          else
            let r := retryLoop op mR bD (a + 1)
            ⟨r.result, bD * 2 ^ (a - 1) :: r.delays, r.calls + 1⟩
      else ⟨.error none, [], 0⟩ := by
  unfold retryLoop
  cases hf : mR + 1 - a with
  | zero =>
    have hgt : ¬ (a ≤ mR) := by omega
    rw [retryLoopAux, if_neg hgt]
  | succ f =>
    have hle : a ≤ mR := by omega
    have hff : mR + 1 - (a + 1) = f := by omega
    rw [retryLoopAux, if_pos hle, if_pos hle, hff]

/-- `retryFDAApiCall` from `utils.ts` (defaults `maxRetries = 3`,
`baseDelay = 1000` are passed explicitly by the theorems). -/
def retryFDAApiCall (op : Nat → Except Err α) (maxRetries baseDelay : Nat) :
    Tr (Except (Option Err) α) :=
  retryLoop op maxRetries baseDelay 1

lemma retryLoop_allFail {α : Type} (op : Nat → Except Err α) (mR bD : Nat) :
    ∀ f a, 1 ≤ a → a ≤ mR → mR - a = f →
    (∀ n, a ≤ n → n ≤ mR → ∃ e, op n = Except.error e ∧ nonRetryable e = false) →
    (retryLoop op mR bD a).calls = mR - a + 1 ∧
    (retryLoop op mR bD a).delays
      = (List.range (mR - a)).map (fun k => bD * 2 ^ (a - 1 + k)) ∧
    ∃ e, op mR = Except.error e ∧
      (retryLoop op mR bD a).result = Except.error (some e) := by
  intro f
  induction f with
  | zero =>
    intro a ha hle hf hfail
    have haeq : a = mR := by omega
    subst haeq
    obtain ⟨e, hope, hnr⟩ := hfail a le_rfl hle
    have hstep : retryLoop op a bD a = ⟨.error (some e), [], 1⟩ := by
      rw [retryLoop_unfold]; simp [hope, hnr]
    rw [hstep]
    exact ⟨by simp, by simp, e, hope, rfl⟩
  | succ f ih =>
    intro a ha hle hf hfail
    have halt : a < mR := by omega
    obtain ⟨e, hope, hnr⟩ := hfail a le_rfl hle
    have hane : ¬ (a = mR) := by omega
    have hstep : retryLoop op mR bD a =
        ⟨(retryLoop op mR bD (a + 1)).result,
         bD * 2 ^ (a - 1) :: (retryLoop op mR bD (a + 1)).delays,
         (retryLoop op mR bD (a + 1)).calls + 1⟩ := by
      rw [retryLoop_unfold]; simp [hle, hope, hnr, hane]
    obtain ⟨ihc, ihd, e', hope', hres'⟩ :=
      ih (a + 1) (by omega) (by omega) (by omega)
        (fun n hn hn' => hfail n (by omega) hn')
    rw [hstep]
    refine ⟨by simp [ihc]; omega, ?_, e', hope', by simp [hres']⟩
    simp only [ihd]
    have hrange : mR - a = (mR - (a + 1)) + 1 := by omega
    rw [hrange, List.range_succ_eq_map]
    simp only [List.map_cons, List.map_map, List.cons.injEq]
    refine ⟨by simp, ?_⟩
    apply List.map_congr_left
    intro k hk
    show bD * 2 ^ (a + 1 - 1 + k) = bD * 2 ^ (a - 1 + (k + 1))
    have hxy : a + 1 - 1 + k = a - 1 + (k + 1) := by omega
    rw [hxy]

lemma nonRetryable_of_status (e : Err) (s : Nat) (hs : e.status = some s) :
    nonRetryable e = (s != 0 && decide (s < 500) && s != 429) := by
  unfold nonRetryable; rw [hs]

lemma nonRetryable_of_no_status (e : Err) (hs : e.status = none) :
    nonRetryable e = false := by
  unfold nonRetryable; rw [hs]

lemma nonRetryable_false_of_retryable (e : Err) (s : Nat) (hs : e.status = some s)
    (hcase : s = 429 ∨ 500 ≤ s) : nonRetryable e = false := by
  rw [nonRetryable_of_status e s hs]
  rcases hcase with h | h
  · subst h; decide
  · have h5 : ¬ (s < 500) := by omega
    simp [h5]

lemma retryFDA_allFail {α : Type} (op : Nat → Except Err α) (mR bD : Nat)
    (hmr : 1 ≤ mR)
    (hfail : ∀ n, 1 ≤ n → n ≤ mR →
      ∃ e, op n = Except.error e ∧ nonRetryable e = false) :
    (retryFDAApiCall op mR bD).calls = mR ∧
    (retryFDAApiCall op mR bD).delays
      = (List.range (mR - 1)).map (fun k => bD * 2 ^ k) ∧
    ∃ e, op mR = Except.error e ∧
      (retryFDAApiCall op mR bD).result = Except.error (some e) := by
  obtain ⟨hc, hd, e, hop, hres⟩ :=
    retryLoop_allFail op mR bD (mR - 1) 1 le_rfl hmr (by omega) hfail
  refine ⟨?_, ?_, e, hop, hres⟩
  · show (retryLoop op mR bD 1).calls = mR
    rw [hc]; omega
  · show (retryLoop op mR bD 1).delays = _
    rw [hd]
    apply List.map_congr_left
    intro k hk
    norm_num

/-- C1: for a zero-argument operation that fails on every invocation with a
retryable error (HTTP 429 or any 5xx), `retryFDAApiCall` invokes the
operation exactly `maxRetries` times, the delay inserted before attempt
`k+1` equals `baseDelay * 2 ^ (k-1)`, and after the final attempt it
re-raises the error observed on the last attempt. -/
theorem c1_retry_backoff {α : Type} (op : Nat → Except Err α) (mR bD : Nat)
    (hmr : 1 ≤ mR)
    (hfail : ∀ n, 1 ≤ n → n ≤ mR →
      ∃ e s, op n = Except.error e ∧ e.status = some s ∧ (s = 429 ∨ 500 ≤ s)) :
    (retryFDAApiCall op mR bD).calls = mR ∧
    (retryFDAApiCall op mR bD).delays
      = (List.range (mR - 1)).map (fun k => bD * 2 ^ k) ∧
    (∀ k, 1 ≤ k → k < mR →
      (retryFDAApiCall op mR bD).delays.get? (k - 1) = some (bD * 2 ^ (k - 1))) ∧
    (∃ e, op mR = Except.error e ∧
      (retryFDAApiCall op mR bD).result = Except.error (some e)) := by
  have hfail' : ∀ n, 1 ≤ n → n ≤ mR →
      ∃ e, op n = Except.error e ∧ nonRetryable e = false := by
    intro n h1 h2
    obtain ⟨e, s, hop, hs, hcase⟩ := hfail n h1 h2
    exact ⟨e, hop, nonRetryable_false_of_retryable e s hs hcase⟩
  obtain ⟨hc, hd, e, hop, hres⟩ := retryFDA_allFail op mR bD hmr hfail'
  refine ⟨hc, hd, ?_, e, hop, hres⟩
  intro k hk1 hk2
  rw [hd, List.get?_map, List.get?_range (by omega : k - 1 < mR - 1)]
  rfl

/-- Operation that always fails with HTTP 503: witness input for C1. -/
def c1demoOp : Nat → Except Err Nat :=
  fun n => Except.error ⟨some 503, "server error " ++ toString n⟩

theorem c1_retry_backoff_witness :
    (retryFDAApiCall c1demoOp 3 1000).calls = 3 ∧
    (retryFDAApiCall c1demoOp 3 1000).delays = [1000, 2000] ∧
    (retryFDAApiCall c1demoOp 3 1000).delays.get? 1 = some 2000 ∧
    (retryFDAApiCall c1demoOp 3 1000).result
      = Except.error (some ⟨some 503, "server error 3"⟩) := by
  obtain ⟨hc, hd, hk, e, hop, hres⟩ :=
    c1_retry_backoff c1demoOp 3 1000 (by omega)
      (fun n _ _ =>
        ⟨⟨some 503, "server error " ++ toString n⟩, 503, rfl, rfl, Or.inr (by omega)⟩)
  refine ⟨hc, by rw [hd]; rfl, ?_, ?_⟩
  · have := hk 2 (by omega) (by omega)
    simpa using this
  · have h3 : c1demoOp 3 = Except.error ⟨some 503, "server error 3"⟩ := rfl
    rw [hop] at h3
    injection h3 with he
    rw [hres, he]

/-- C2: a first-invocation failure with a client-class status (400-499,
excluding 429) is re-raised immediately: exactly one invocation, no delay,
no further attempts. -/
theorem c2_client_error_immediate {α : Type} (op : Nat → Except Err α)
    (mR bD : Nat) (hmr : 1 ≤ mR) (e : Err) (s : Nat)
    (hop : op 1 = Except.error e) (hs : e.status = some s)
    (h4 : 400 ≤ s) (h5 : s < 500) (h429 : s ≠ 429) :
    retryFDAApiCall op mR bD = ⟨Except.error (some e), [], 1⟩ := by
  have hnr : nonRetryable e = true := by
    rw [nonRetryable_of_status e s hs]
    have h0 : s ≠ 0 := by omega
    simp [h0, h5, h429]
  unfold retryFDAApiCall
  rw [retryLoop_unfold]
  simp [hmr, hop, hnr]

/-- Operation that always fails with HTTP 404: witness input for C2. -/
def c2demoOp : Nat → Except Err Nat :=
  fun _ => Except.error ⟨some 404, "Not Found"⟩

theorem c2_client_error_immediate_witness :
    retryFDAApiCall c2demoOp 3 1000
      = ⟨Except.error (some ⟨some 404, "Not Found"⟩), [], 1⟩ :=
  c2_client_error_immediate c2demoOp 3 1000 (by omega)
    ⟨some 404, "Not Found"⟩ 404 rfl rfl (by omega) (by omega) (by omega)

/-- C10: a failure carrying no HTTP status at all (DNS/connection error) is
treated as retryable: `retryFDAApiCall` backs off and retries up to
`maxRetries` total attempts instead of re-raising immediately. -/
theorem c10_no_status_retries {α : Type} (op : Nat → Except Err α)
    (mR bD : Nat) (hmr : 1 ≤ mR)
    (hfail : ∀ n, 1 ≤ n → n ≤ mR →
      ∃ e, op n = Except.error e ∧ e.status = none) :
    (retryFDAApiCall op mR bD).calls = mR ∧
    (retryFDAApiCall op mR bD).delays
      = (List.range (mR - 1)).map (fun k => bD * 2 ^ k) ∧
    ∃ e, op mR = Except.error e ∧
      (retryFDAApiCall op mR bD).result = Except.error (some e) := by
  apply retryFDA_allFail op mR bD hmr
  intro n h1 h2
  obtain ⟨e, hop, hs⟩ := hfail n h1 h2
  exact ⟨e, hop, nonRetryable_of_no_status e hs⟩

/-- Operation that always fails with a status-less connection error:
witness input for C10. -/
def c10demoOp : Nat → Except Err Nat :=
  fun _ => Except.error ⟨none, "getaddrinfo ENOTFOUND"⟩

theorem c10_no_status_retries_witness :
    (retryFDAApiCall c10demoOp 3 1000).calls = 3 ∧
    (retryFDAApiCall c10demoOp 3 1000).delays = [1000, 2000] ∧
    (retryFDAApiCall c10demoOp 3 1000).result
      = Except.error (some ⟨none, "getaddrinfo ENOTFOUND"⟩) := by
  obtain ⟨hc, hd, e, hop, hres⟩ :=
    c10_no_status_retries c10demoOp 3 1000 (by omega)
      (fun _ _ _ => ⟨⟨none, "getaddrinfo ENOTFOUND"⟩, rfl, rfl⟩)
  refine ⟨hc, by rw [hd]; rfl, ?_⟩
  have h3 : c10demoOp 3 = Except.error ⟨none, "getaddrinfo ENOTFOUND"⟩ := rfl
  rw [hop] at h3
  injection h3 with he
  rw [hres, he]

/-! ## Acquisition operations over an abstract HTTP environment

Each operation of `utils.ts` is embedded as a function of the outcome(s)
of its remote call(s).  Single-shot operations take one
`Except Err <response>`; the two operations wrapped in `retryFDAApiCall`
take a per-attempt outcome function `Nat → Except Err <response>`.
Record payloads pass through the acquisition layer unchanged, so they
are modelled as opaque tokens. -/

/-- An FDA drug-label record; passed through unchanged by `utils.ts`. -/
structure DrugLabel where
  tag : Nat
deriving DecidableEq, Repr

/-- An FDA adverse-event record; passed through unchanged by `utils.ts`. -/
structure AdverseEvent where
  tag : Nat
deriving DecidableEq, Repr

/-- An RxNorm concept record; passed through unchanged by `utils.ts`. -/
structure RxNormDrug where
  tag : Nat
deriving DecidableEq, Repr

/-- Body of an FDA `drug/label.json` response: `res.body.results` may be
absent (`|| []` in the source). -/
structure FDAResponse where
  results : Option (List DrugLabel)
deriving DecidableEq, Repr

/-- Body of an FDA `drug/event.json` response. -/
structure EventResponse where
  results : Option (List AdverseEvent)
deriving DecidableEq, Repr

/-- `res.body.results || []`. -/
def fdaResults (r : FDAResponse) : List DrugLabel := r.results.getD []

/-- `res.body.results || []` for adverse events. -/
def eventResults (r : EventResponse) : List AdverseEvent := r.results.getD []

/-- The `SearchField` union type of `utils.ts`. -/
inductive SearchField
  | brand_name
  | generic_name
  | active_ingredient
  | substance_name
  | manufacturer_name
  | drug_interactions
  | indications_and_usage
  | route
  | dosage_form
deriving DecidableEq, Repr

/-- The `switch (searchField)` of `searchDrugs` building the FDA search
expression, with the no-field fallthrough passing the raw query. -/
def buildSearchQuery (query : String) (sf : Option SearchField) : String :=
  match sf with
  | none => query
  | some .brand_name => "openfda.brand_name:" ++ query
  | some .generic_name => "openfda.generic_name:" ++ query
  | some .active_ingredient => "openfda.substance_name:" ++ query
  | some .substance_name => "openfda.substance_name:" ++ query
  | some .manufacturer_name => "openfda.manufacturer_name:" ++ query
  | some .drug_interactions => "drug_interactions:" ++ query
  | some .indications_and_usage => "indications_and_usage:" ++ query
  | some .route => "openfda.route:" ++ query
  | some .dosage_form => "openfda.dosage_form:" ++ query

/-- Modelled from the spec: the endpoint base URL constant exported by
`constants.ts`, which is not under `src/`; the claims only require that
the context records this URL, not its exact text. -/
def FDA_API_BASE : String := "https://api.fda.gov"

/-- The `context` object `searchDrugs` attaches to its contextual error. -/
structure SearchContext where
  query : String
  searchField : Option SearchField
  searchQuery : String
  limit : Nat
  apiUrl : String
  retryAttempted : Bool
deriving DecidableEq, Repr

/-- The enriched error thrown by `searchDrugs`:
`new Error(...)` with `originalError` and `context` attached. -/
structure ContextualError where
  message : String
  originalError : Option Err
  context : SearchContext
deriving DecidableEq, Repr

/-- The message `` `FDA API Error: ${error.message}` ``. -/
def ctxMessage (oe : Option Err) : String :=
  "FDA API Error: " ++ (oe.map Err.msg).getD ""

/-- `searchDrugs` from `utils.ts`: builds the field-specific search
expression, runs the request through `retryFDAApiCall`, and on failure
re-throws a contextual error carrying the original error and the search
context. -/
def searchDrugsT (http : Nat → Except Err FDAResponse)
    (query : String) (limit : Nat) (sf : Option SearchField) :
    Tr (Except ContextualError (List DrugLabel)) :=
  let sq := buildSearchQuery query sf
  let t := retryFDAApiCall (fun n => (http n).map fdaResults) 3 1000
  match t.result with
  | .ok l => ⟨.ok l, t.delays, t.calls⟩
  | .error oe =>
    ⟨.error ⟨ctxMessage oe, oe,
      ⟨query, sf, sq, limit, FDA_API_BASE ++ "/drug/label.json", true⟩⟩,
     t.delays, t.calls⟩

/-- `searchDrugsByActiveIngredient` from `utils.ts`: one unretried call,
any failure is swallowed and becomes `[]`. -/
def searchDrugsByActiveIngredientT (http : Except Err FDAResponse)
    (ingredient : String) (limit : Nat) : Tr (List DrugLabel) :=
  match http with
  | .ok r => ⟨fdaResults r, [], 1⟩
  | .error _ => ⟨[], [], 1⟩

/-- `searchDrugInteractions` from `utils.ts`: one unretried call with no
try/catch, so a failing call propagates its error to the caller. -/
def searchDrugInteractionsT (http : Except Err FDAResponse)
    (drugName : String) (limit : Nat) : Tr (Except Err (List DrugLabel)) :=
  ⟨http.map fdaResults, [], 1⟩

/-- `getDrugByNDC` from `utils.ts`: one unretried call,
`res.body.results?.[0] || null`, failures become `null`. -/
def getDrugByNDCT (http : Except Err FDAResponse) (ndc : String) :
    Tr (Option DrugLabel) :=
  match http with
  | .ok r => ⟨(fdaResults r).head?, [], 1⟩
  | .error _ => ⟨none, [], 1⟩

/-- `searchAdverseEvents` from `utils.ts`: builds the event search
expression, runs the request through `retryFDAApiCall`, and swallows any
failure into `[]`. -/
def searchAdverseEventsT (http : Nat → Except Err EventResponse)
    (query : String) (searchField : String) (limit : Nat) :
    Tr (List AdverseEvent) :=
  let t := retryFDAApiCall (fun n => (http n).map eventResults) 3 1000
  match t.result with
  | .ok l => ⟨l, t.delays, t.calls⟩
  | .error _ => ⟨[], t.delays, t.calls⟩

/-- The search expression built by `searchAdverseEvents`. -/
def adverseSearchQuery (query searchField : String) : String :=
  if searchField = "medicinalproduct" then
    "patient.drug.medicinalproduct:" ++ query
  else
    "patient.reaction." ++ searchField ++ ":" ++ query

/-- `searchAdverseEventsByDrug` from `utils.ts`: one unretried call,
failures become `[]`. -/
def searchAdverseEventsByDrugT (http : Except Err EventResponse)
    (drugName : String) (limit : Nat) : Tr (List AdverseEvent) :=
  match http with
  | .ok r => ⟨eventResults r, [], 1⟩
  | .error _ => ⟨[], [], 1⟩

/-- `searchAdverseEventsByReaction` from `utils.ts`: one unretried call,
failures become `[]`. -/
def searchAdverseEventsByReactionT (http : Except Err EventResponse)
    (reaction : String) (limit : Nat) : Tr (List AdverseEvent) :=
  match http with
  | .ok r => ⟨eventResults r, [], 1⟩
  | .error _ => ⟨[], [], 1⟩

/-- `getSeriousAdverseEvents` from `utils.ts`: one unretried call,
failures become `[]`. -/
def getSeriousAdverseEventsT (http : Except Err EventResponse)
    (drugName : Option String) (limit : Nat) : Tr (List AdverseEvent) :=
  match http with
  | .ok r => ⟨eventResults r, [], 1⟩
  | .error _ => ⟨[], [], 1⟩

/-- Nested RxNav response shape
`res.body.drugGroup?.conceptGroup?.[0]?.concept || []`. -/
structure RxConceptGroup where
  concept : Option (List RxNormDrug)
deriving DecidableEq, Repr

/-- `drugGroup` of an RxNav response. -/
structure RxDrugGroup where
  conceptGroup : Option (List RxConceptGroup)
deriving DecidableEq, Repr

/-- Body of an RxNav `drugs.json` response. -/
structure RxResponse where
  drugGroup : Option RxDrugGroup
deriving DecidableEq, Repr

/-- `searchRxNormDrugs` from `utils.ts`: one unretried call, optional
chain into the first concept group, failures become `[]`. -/
def searchRxNormDrugsT (http : Except Err RxResponse) (query : String) :
    Tr (List RxNormDrug) :=
  match http with
  | .ok r =>
    ⟨((((r.drugGroup.bind RxDrugGroup.conceptGroup).bind List.head?).bind
        RxConceptGroup.concept)).getD [], [], 1⟩
  | .error _ => ⟨[], [], 1⟩

/-! ## Embedded JavaScript regular-expression scanners

The patterns used by `utils.ts` are simple enough that their
leftmost-match semantics is deterministic; each is embedded as an
executable scanner over `List Char`. -/

/-- JavaScript `String.prototype.trim` on the character list: strip
leading and trailing whitespace. -/
def trimL (s : List Char) : List Char :=
  ((s.dropWhile Char.isWhitespace).reverse.dropWhile Char.isWhitespace).reverse

/-- `trimL` on strings. -/
def trimS (s : String) : String := String.mk (trimL s.data)

/-- First occurrence of the literal `pat`: the text before it and the
text after it, or `none` when `pat` does not occur. -/
def splitFirst (pat : List Char) : List Char → Option (List Char × List Char)
  | [] => none
  | c :: rest =>
    if pat.isPrefixOf (c :: rest) then some ([], (c :: rest).drop pat.length)
    else (splitFirst pat rest).map (fun p => (c :: p.1, p.2))

/-- Whether the literal `pat` occurs in `s` (JavaScript `includes`). -/
def containsSub (pat s : List Char) : Bool := (splitFirst pat s).isSome

/-- Leftmost-match driver: try the position matcher `f` at every suffix,
left to right, as a JavaScript regex engine does. -/
def scanFirst (f : List Char → Option α) : List Char → Option α
  | [] => none
  | c :: rest =>
    match f (c :: rest) with
    | some r => some r
    | none => scanFirst f rest

/-- `<TAG[^>]*>` anchored at the head of `s` (greedy `[^>]*` then the
forced `>`): the remainder after the `>`, or `none`. -/
def openTagAt (tag : List Char) (s : List Char) : Option (List Char) :=
  if ('<' :: tag).isPrefixOf s then
    let rest := s.drop (tag.length + 1)
    match rest.dropWhile (· != '>') with
    | '>' :: tail => some tail
    | _ => none
  else none

/-- `<TAG[^>]*>(\d+)</TAG>` anchored at the head of `s`: the digit
capture. -/
def digitsCaptureAt (tag closing : List Char) (s : List Char) :
    Option (List Char) :=
  (openTagAt tag s).bind fun rest =>
    let ds := rest.takeWhile Char.isDigit
    if ds.isEmpty then none
    else if closing.isPrefixOf (rest.drop ds.length) then some ds else none

/-- `<TAG[^>]*>([^<]+)</TAG>` anchored at the head of `s`: the text
capture. -/
def textCaptureAt (tag closing : List Char) (s : List Char) :
    Option (List Char) :=
  (openTagAt tag s).bind fun rest =>
    let tx := rest.takeWhile (· != '<')
    if tx.isEmpty then none
    else if closing.isPrefixOf (rest.drop tx.length) then some tx else none

/-- `<TAG>([^<]+)</TAG>` (literal open tag, no attributes) anchored at
the head of `s`: the text capture. -/
def exactTextCaptureAt (openL closing : List Char) (s : List Char) :
    Option (List Char) :=
  if openL.isPrefixOf s then
    let rest := s.drop openL.length
    let tx := rest.takeWhile (· != '<')
    if tx.isEmpty then none
    else if closing.isPrefixOf (rest.drop tx.length) then some tx else none
  else none

/-- `<TAG[^>]*>([\s\S]*?)</TAG>` anchored at some suffix of `s`, leftmost
first: the whole match, the lazy inner capture, and the remainder after
the match. -/
def lazyTagFirst (tag closing : List Char) :
    List Char → Option (List Char × List Char × List Char)
  | [] => none
  | c :: rest =>
    match (openTagAt tag (c :: rest)).bind (fun r1 =>
        (splitFirst closing r1).map (fun p => (p.1, p.2))) with
    | some (inner, after) =>
      some (((c :: rest).take ((c :: rest).length - after.length)), inner, after)
    | none => lazyTagFirst tag closing rest

/-- Global (`/g`) version of `lazyTagFirst`: all matches, in order; each
search resumes after the previous match.  Fuel is the string length,
which bounds the number of matches. -/
def lazyTagAllAux (tag closing : List Char) :
    Nat → List Char → List (List Char)
  | 0, _ => []
  | Nat.succ fuel, s =>
    match lazyTagFirst tag closing s with
    | none => []
    | some (m, _, after) => m :: lazyTagAllAux tag closing fuel after

/-- All matches of `<TAG[^>]*>([\s\S]*?)</TAG>` in `s`, in order. -/
def lazyTagAll (tag closing s : List Char) : List (List Char) :=
  lazyTagAllAux tag closing s.length s

/-- `OPEN[\s\S]*?CLOSE` for literal `OPEN`/`CLOSE`, leftmost first: whole
match and remainder. -/
def literalLazyFirst (openL closeL : List Char) (s : List Char) :
    Option (List Char × List Char) :=
  (splitFirst openL s).bind fun p1 =>
    (splitFirst closeL p1.2).map fun p2 =>
      (openL ++ p2.1 ++ closeL, p2.2)

/-- Global version of `literalLazyFirst`. -/
def literalLazyAllAux (openL closeL : List Char) :
    Nat → List Char → List (List Char)
  | 0, _ => []
  | Nat.succ fuel, s =>
    match literalLazyFirst openL closeL s with
    | none => []
    | some (m, after) => m :: literalLazyAllAux openL closeL fuel after

/-- All matches of `OPEN[\s\S]*?CLOSE` in `s`, in order. -/
def literalLazyAll (openL closeL s : List Char) : List (List Char) :=
  literalLazyAllAux openL closeL s.length s

/-! ## The PubMed record extractor (`searchPubMedArticles`) -/

/-- A parsed PubMed article, as assembled by `searchPubMedArticles`. -/
structure PubMedArticle where
  pmid : String
  title : String
  abstract : String
  authors : List String
  journal : String
  publication_date : String
deriving DecidableEq, Repr

/-- `xmlText.match(/<PubmedArticle>[\s\S]*?<\/PubmedArticle>/g) || []`. -/
def extractBlocks (xml : List Char) : List (List Char) :=
  literalLazyAll "<PubmedArticle>".data "</PubmedArticle>".data xml

/-- `block.match(/<PMID[^>]*>(\d+)<\/PMID>/)`, capture group or `""`. -/
def pmidOf (block : List Char) : String :=
  ((scanFirst (digitsCaptureAt "PMID".data "</PMID>".data) block).map
    String.mk).getD ""

/-- `block.match(/<ArticleTitle[^>]*>([^<]+)<\/ArticleTitle>/)`, capture
group or `""`. -/
def titleOf (block : List Char) : String :=
  ((scanFirst (textCaptureAt "ArticleTitle".data "</ArticleTitle>".data)
    block).map String.mk).getD ""

/-- `block.match(/<AbstractText[^>]*>([\s\S]*?)<\/AbstractText>/g) || []`:
the abstract-section elements of a record block, whole matches. -/
def abstractSections (block : List Char) : List (List Char) :=
  lazyTagAll "AbstractText".data "</AbstractText>".data block

/-- `match.match(/Label="([^"]*?)"/)` on one abstract-section element. -/
def labelCapture (m : List Char) : Option (List Char) :=
  (splitFirst "Label=\"".data m).bind fun p =>
    (splitFirst ['"'] p.2).map (·.1)

/-- The lazy inner capture of one abstract-section element. -/
def abstractInner (m : List Char) : Option (List Char) :=
  (lazyTagFirst "AbstractText".data "</AbstractText>".data m).map
    (fun t => t.2.1)

/-- One element of `abstractParts`: `label ? `"<label>: <text>"` : text`,
with the section text trimmed. -/
def abstractPart (m : List Char) : String :=
  let label := ((labelCapture m).map String.mk).getD ""
  let text := trimS (((abstractInner m).map String.mk).getD "")
  if label ≠ "" then label ++ ": " ++ text else text

/-- The `abstract` accumulator of the block loop: `""` when there are no
abstract sections, else the parts joined by a single space. -/
def abstractJoined (block : List Char) : String :=
  let ms := abstractSections block
  if ms.isEmpty then "" else String.intercalate " " (ms.map abstractPart)

/-- The emitted abstract: `abstract || "Abstract not available"`. -/
def abstractField (block : List Char) : String :=
  let a := abstractJoined block
  if a = "" then "Abstract not available" else a

/-- `block.match(/<Author[^>]*>[\s\S]*?<\/Author>/g) || []`. -/
def authorBlocks (block : List Char) : List (List Char) :=
  lazyTagAll "Author".data "</Author>".data block

/-- One author name: `firstName ? `"<first> <last>"` : lastName`. -/
def authorName (ab : List Char) : String :=
  let lastName := ((scanFirst
    (exactTextCaptureAt "<LastName>".data "</LastName>".data) ab).map
    String.mk).getD ""
  let firstName := ((scanFirst
    (exactTextCaptureAt "<ForeName>".data "</ForeName>".data) ab).map
    String.mk).getD ""
  if firstName ≠ "" then firstName ++ " " ++ lastName else lastName

/-- The author list of a block, with empty names filtered out. -/
def authorsOf (block : List Char) : List String :=
  ((authorBlocks block).map authorName).filter (· ≠ "")

/-- `block.match(/<Title>([^<]+)<\/Title>/)`, with the journal
placeholder default. -/
def journalOf (block : List Char) : String :=
  ((scanFirst (exactTextCaptureAt "<Title>".data "</Title>".data)
    block).map String.mk).getD "Journal information not available"

/-- `/<Year>(\d{4})<\/Year>/` anchored at the head of `s`. -/
def yearCaptureAt (s : List Char) : Option (List Char) :=
  if "<Year>".data.isPrefixOf s then
    let rest := s.drop 6
    let ds := rest.take 4
    if ds.length = 4 && ds.all Char.isDigit
        && "</Year>".data.isPrefixOf (rest.drop 4) then some ds else none
  else none

/-- The publication date: first `<PubDate>...</PubDate>` sub-block, then
`"<month> <year>"`, bare year, or the date placeholder. -/
def pubDateOf (block : List Char) : String :=
  match literalLazyFirst "<PubDate>".data "</PubDate>".data block with
  | none => "Date not available"
  | some (m, _) =>
    match scanFirst yearCaptureAt m with
    | none => "Date not available"
    | some y =>
      match scanFirst (exactTextCaptureAt "<Month>".data "</Month>".data) m with
      | none => String.mk y
      | some mo => String.mk mo ++ " " ++ String.mk y

/-- The article assembled from one record block (before the
pmid/title admission test). -/
def mkArticle (block : List Char) : PubMedArticle :=
  { pmid := pmidOf block
    title := titleOf block
    abstract := abstractField block
    authors := authorsOf block
    journal := journalOf block
    publication_date := pubDateOf block }

/-- The admission test `if (pmid && title)` of the block loop. -/
def blockWellFormed (block : List Char) : Bool :=
  pmidOf block != "" && titleOf block != ""

/-- The parsing phase of `searchPubMedArticles` applied to the phase-2
response text: split into record blocks, keep the well-formed ones. -/
def parsePubMed (xml : String) : List PubMedArticle :=
  (extractBlocks xml.data).filterMap
    (fun b => if blockWellFormed b then some (mkArticle b) else none)

/-- `esearchresult` of a phase-1 PubMed response. -/
structure ESearchResult where
  idlist : Option (List String)
deriving DecidableEq, Repr

/-- Body of a phase-1 PubMed response. -/
structure ESearchResp where
  esearchresult : Option ESearchResult
deriving DecidableEq, Repr

/-- `searchPubMedArticles` from `utils.ts` over the outcomes of its two
remote calls: phase 1 resolves ids (failure is swallowed into `[]`),
phase 2 is skipped when the id list is empty, and the phase-2 text is
parsed by `parsePubMed`. -/
def searchPubMedArticlesT (e1 : Except Err ESearchResp)
    (e2 : Except Err String) (query : String) (maxResults : Nat) :
    Tr (List PubMedArticle) :=
  match e1 with
  | .error _ => ⟨[], [], 1⟩
  | .ok r =>
    let idList := (r.esearchresult.bind ESearchResult.idlist).getD []
    if idList.isEmpty then ⟨[], [], 1⟩
    else
      match e2 with
      | .error _ => ⟨[], [], 2⟩
      | .ok xml => ⟨parsePubMed xml, [], 2⟩

/-! ## C6/C7: emission and abstract assembly of the PubMed extractor -/

lemma filterMap_guard {α β : Type} (p : α → Bool) (f : α → β) :
    ∀ l : List α,
      l.filterMap (fun b => if p b then some (f b) else none)
        = (l.filter p).map f := by
  intro l
  induction l with
  | nil => rfl
  | cons x xs ih =>
    by_cases h : p x
    · simp [List.filterMap_cons, List.filter_cons, h, ih]
    · simp [List.filterMap_cons, List.filter_cons, h, ih]

/-- Phase-2 body with one well-formed block and one block missing its
PMID marker: demonstration input for C6. -/
def c6demoXml : String :=
  "<PubmedArticle><PMID Version=\"1\">123</PMID><ArticleTitle>A Study</ArticleTitle><AbstractText Label=\"BACKGROUND\">stuff</AbstractText><Author><LastName>Smith</LastName><ForeName>Jane</ForeName></Author><Title>Nature</Title><PubDate><Year>2021</Year><Month>Jan</Month></PubDate></PubmedArticle><PubmedArticle><ArticleTitle>No Id</ArticleTitle></PubmedArticle>"

/-- The single article the C6 demonstration input parses to. -/
def c6demoArticle : PubMedArticle :=
  ⟨"123", "A Study", "BACKGROUND: stuff", ["Jane Smith"], "Nature", "Jan 2021"⟩

/-- C6: the extractor emits an article for a record block iff both its
PMID and its title captures are non-empty; a block missing either marker
is omitted while every other well-formed block of the batch is kept, in
order. -/
theorem c6_pubmed_emission :
    (∀ xml : String,
      parsePubMed xml
        = ((extractBlocks xml.data).filter blockWellFormed).map mkArticle) ∧
    (∀ xml : String, ∀ a ∈ parsePubMed xml, a.pmid ≠ "" ∧ a.title ≠ "") ∧
    parsePubMed c6demoXml = [c6demoArticle] := by
  have hmain : ∀ xml : String,
      parsePubMed xml
        = ((extractBlocks xml.data).filter blockWellFormed).map mkArticle :=
    fun xml => filterMap_guard blockWellFormed mkArticle (extractBlocks xml.data)
  refine ⟨hmain, ?_, by rfl⟩
  intro xml a ha
  rw [hmain xml] at ha
  obtain ⟨b, hb, rfl⟩ := List.mem_map.mp ha
  have hwf : blockWellFormed b = true := (List.mem_filter.mp hb).2
  unfold blockWellFormed at hwf
  rw [Bool.and_eq_true, bne_iff_ne, bne_iff_ne] at hwf
  exact hwf

theorem c6_pubmed_emission_witness :
    (parsePubMed c6demoXml
      = ((extractBlocks c6demoXml.data).filter blockWellFormed).map mkArticle) ∧
    (c6demoArticle.pmid ≠ "" ∧ c6demoArticle.title ≠ "") := by
  refine ⟨c6_pubmed_emission.1 c6demoXml, ?_⟩
  have hm : c6demoArticle ∈ parsePubMed c6demoXml := by
    rw [c6_pubmed_emission.2.2]
    exact List.mem_singleton.mpr rfl
  exact c6_pubmed_emission.2.1 c6demoXml c6demoArticle hm

/-- Claim C7 as stated: sections carrying a label attribute are prefixed
with `"<Label>: "`, all sections are joined with a single space, and the
placeholder is used only when no sections exist. -/
def specAbstractC7 (block : List Char) : String :=
  let ms := abstractSections block
  if ms.isEmpty then "Abstract not available"
  else String.intercalate " " (ms.map (fun m =>
    match labelCapture m with
    | some lab =>
      String.mk lab ++ ": " ++ trimS (((abstractInner m).map String.mk).getD "")
    | none => trimS (((abstractInner m).map String.mk).getD "")))

/-- The proposition claimed by C7. -/
def claimC7 : Prop :=
  ∀ block : List Char, abstractField block = specAbstractC7 block

/-- C7 counterexample: on the block `<AbstractText></AbstractText>` (one
section, no label, empty text) the code emits the placeholder, while the
claim's assembly yields the empty string. -/
theorem c7_counterexample : ¬ claimC7 := by
  intro h
  exact absurd (h "<AbstractText></AbstractText>".data) (by decide)

/-- C7 as amended: the placeholder is used whenever the assembled text is
empty, and a label prefixes its section only when the captured label is
non-empty. -/
def specAbstractC7Amended (block : List Char) : String :=
  let parts := (abstractSections block).map (fun m =>
    let label := ((labelCapture m).map String.mk).getD ""
    let text := trimS (((abstractInner m).map String.mk).getD "")
    if label ≠ "" then label ++ ": " ++ text else text)
  let joined := String.intercalate " " parts
  if joined = "" then "Abstract not available" else joined

/-- Two labeled abstract sections: demonstration input for C7. -/
def c7demoBlock : String :=
  "<AbstractText Label=\"BACKGROUND\">stuff</AbstractText><AbstractText Label=\"RESULTS\">more</AbstractText>"

/-- C7 (amended): the abstract equals the labeled-prefix join with the
placeholder substituted whenever the assembled text is empty; on the
two-section BACKGROUND/RESULTS demonstration block it is
`"BACKGROUND: stuff RESULTS: more"`, and with no sections it is the
placeholder. -/
theorem c7_abstract_assembly :
    (∀ block : List Char, abstractField block = specAbstractC7Amended block) ∧
    abstractField c7demoBlock.data = "BACKGROUND: stuff RESULTS: more" ∧
    abstractField "".data = "Abstract not available" := by
  refine ⟨?_, by rfl, by rfl⟩
  intro block
  unfold abstractField abstractJoined specAbstractC7Amended abstractPart
  cases hms : abstractSections block with
  | nil => rfl
  | cons x xs => simp

/-! ## The Google Scholar scraping session (`searchGoogleScholar`) -/

/-- One matched result container as seen by the in-page extraction pass:
for each field group, the `textContent` of the first selector-chain hit
(`none` when every selector misses or the node has no text), plus the
`href` of the title element. -/
structure RawContainer where
  titleText : Option String
  titleHref : Option String
  authorsText : Option String
  abstractText : Option String
  citationsText : Option String
deriving DecidableEq, Repr

/-- A scraped article as pushed by the extraction pass. -/
structure GoogleScholarArticle where
  title : String
  authors : String
  abstract : String
  journal : String
  year : String
  citations : String
  url : String
deriving DecidableEq, Repr

/-- `element?.textContent?.trim() || ""`. -/
def optTrim (o : Option String) : String := trimS (o.getD "")

/-- `/(\d{4})/` anchored at the head of `s`: four consecutive digits. -/
def fourDigitsAt (s : List Char) : Option (List Char) :=
  let pre := s.take 4
  if pre.length = 4 && pre.all Char.isDigit then some pre else none

/-- `text.match(/(\d{4})/)`: the leftmost run of four digits. -/
def firstFourDigits (s : String) : Option String :=
  (scanFirst fourDigitsAt s.data).map String.mk

/-- The year fallback chain: author/venue text, then title, then
abstract; empty when no 4-digit match anywhere. -/
def yearOf (authors title abstract : String) : String :=
  match firstFourDigits authors with
  | some y => y
  | none =>
    match firstFourDigits title with
    | some y => y
    | none => (firstFourDigits abstract).getD ""

/-- The shared shape of the patterns `dash space ([^dash]+) $` and
`comma space ([^comma]+) $`: leftmost position holding `sep` then a
space then a non-empty `sep`-free tail running to the end of the
text. -/
def sepEndCapture (sep : Char) : List Char → Option (List Char)
  | [] => none
  | c :: rest =>
    if c = sep ∧ rest.head? = some ' ' then
      if !rest.tail.isEmpty && rest.tail.all (· != sep) then some rest.tail
      else sepEndCapture sep rest
    else sepEndCapture sep rest

/-- `/in ([^,]+)/`: leftmost occurrence of the three characters
`i`, `n`, space followed by at least one non-comma character; the
capture is the maximal comma-free run. -/
def inCapture : List Char → Option (List Char)
  | [] => none
  | c :: rest =>
    if c = 'i' ∧ rest.head? = some 'n' ∧ rest.tail.head? = some ' ' then
      let cap := rest.tail.tail.takeWhile (· != ',')
      if !cap.isEmpty then some cap else inCapture rest
    else inCapture rest

/-- The journal fallback chain of the extraction pass: the dash-space
pattern, then the comma-space pattern, then `in ([^,]+)`, first match
wins, capture trimmed, empty when none match. -/
def extractJournal (authors : String) : String :=
  match sepEndCapture '-' authors.data with
  | some cap => trimS (String.mk cap)
  | none =>
    match sepEndCapture ',' authors.data with
    | some cap => trimS (String.mk cap)
    | none =>
      match inCapture authors.data with
      | some cap => trimS (String.mk cap)
      | none => ""

/-- The per-container body of the extraction pass: resolve all fields,
then push the record only if the trimmed title is longer than five
characters (`if (title && title.length > 5)`). -/
def scrapeContainer (c : RawContainer) : Option GoogleScholarArticle :=
  let title := optTrim c.titleText
  let url := c.titleHref.getD ""
  let authors := optTrim c.authorsText
  let abstract := optTrim c.abstractText
  let citations := optTrim c.citationsText
  let year := yearOf authors title abstract
  let journal := extractJournal authors
  if title ≠ "" ∧ title.length > 5 then
    some ⟨title, authors, abstract, journal, year, citations, url⟩
  else none

/-- The whole extraction pass over the matched containers, in order. -/
def scrapeContainers (cs : List RawContainer) : List GoogleScholarArticle :=
  cs.filterMap scrapeContainer

/-- Outcomes of the browser-automation steps of one scraping session.
`fallbackGsR` is the node (or `null`) returned by `page.$(".gs_r")`
inside the wait-timeout catch; `evalRes` is the outcome of
`page.evaluate`, whose payload is the list of matched containers. -/
structure ScholarEnv where
  launchRes : Except Err Unit
  newPageRes : Except Err Unit
  setViewportRes : Except Err Unit
  setUserAgentRes : Except Err Unit
  setHeadersRes : Except Err Unit
  gotoRes : Except Err Unit
  waitSelectorRes : Except Err Unit
  fallbackGsR : Option Unit
  evalRes : Except Err (List RawContainer)

/-- Sequencing of two session steps: a failed step aborts the session. -/
def seqE {β : Type} (a : Except Err Unit) (b : Except Err β) : Except Err β :=
  match a with
  | .error e => .error e
  | .ok _ => b

/-- The body of the `try` block of `searchGoogleScholar`: delay, launch,
page setup, navigation, the selector wait with its `page.$(".gs_r")`
fallback (raising "No search results found or page structure changed"
when both miss), then the in-page extraction pass. -/
def scholarSession (env : ScholarEnv) (query : String) :
    Except Err (List GoogleScholarArticle) :=
  seqE env.launchRes <|
  seqE env.newPageRes <|
  seqE env.setViewportRes <|
  seqE env.setUserAgentRes <|
  seqE env.setHeadersRes <|
  seqE env.gotoRes <|
  seqE
    (match env.waitSelectorRes with
     | .ok _ => .ok ()
     | .error _ =>
       match env.fallbackGsR with
       | some _ => .ok ()
       | none =>
         .error ⟨none, "No search results found or page structure changed"⟩) <|
  (env.evalRes.map scrapeContainers)

/-- `searchGoogleScholar` from `utils.ts`: the session wrapped in the
top-level catch that converts any exception into `[]` (the `finally`
browser release does not affect the returned value). -/
def searchGoogleScholar (env : ScholarEnv) (query : String) :
    List GoogleScholarArticle :=
  match scholarSession env query with
  | .ok l => l
  | .error _ => []

/-- C3: any exception inside the scraping session — including the
raised no-results failure — is absorbed, and the caller always receives
a plain list: the session's value on success and `[]` on any error. -/
theorem c3_scholar_failure_empty :
    (∀ env q, (∃ e, scholarSession env q = Except.error e) →
      searchGoogleScholar env q = []) ∧
    (∀ env q, (∃ e, env.waitSelectorRes = Except.error e) →
      env.fallbackGsR = none → searchGoogleScholar env q = []) ∧
    (∀ env q, searchGoogleScholar env q = [] ∨
      ∃ cs, env.evalRes = Except.ok cs ∧
        searchGoogleScholar env q = scrapeContainers cs) := by
  refine ⟨?_, ?_, ?_⟩
  · intro env q ⟨e, he⟩
    unfold searchGoogleScholar
    rw [he]
  · intro env q ⟨e, he⟩ hfb
    unfold searchGoogleScholar scholarSession
    rw [he, hfb]
    cases env.launchRes <;> cases env.newPageRes <;> cases env.setViewportRes
      <;> cases env.setUserAgentRes <;> cases env.setHeadersRes
      <;> cases env.gotoRes <;> rfl
  · intro env q
    unfold searchGoogleScholar scholarSession
    cases env.launchRes <;> cases env.newPageRes <;> cases env.setViewportRes
      <;> cases env.setUserAgentRes <;> cases env.setHeadersRes
      <;> cases env.gotoRes <;> try exact Or.inl rfl
    cases env.waitSelectorRes <;> cases env.fallbackGsR
      <;> cases hev : env.evalRes <;>
      first
        | exact Or.inl rfl
        | exact Or.inr ⟨_, rfl, rfl⟩

/-- An all-failing session environment: witness input for C3. -/
def c3demoEnv : ScholarEnv :=
  ⟨.ok (), .ok (), .ok (), .ok (), .ok (), .ok (),
   .error ⟨none, "TimeoutError: waiting for selector failed"⟩, none,
   .ok []⟩

theorem c3_scholar_failure_empty_witness :
    searchGoogleScholar c3demoEnv "machine learning healthcare" = [] ∧
    searchGoogleScholar c3demoEnv "aspirin" = [] := by
  refine ⟨?_, ?_⟩
  · exact c3_scholar_failure_empty.2.1 c3demoEnv "machine learning healthcare"
      ⟨⟨none, "TimeoutError: waiting for selector failed"⟩, rfl⟩ rfl
  · exact c3_scholar_failure_empty.1 c3demoEnv "aspirin"
      ⟨⟨none, "No search results found or page structure changed"⟩, rfl⟩

/-! ## C8: title length is the sole admission filter -/

/-- C8: a scraped container is admitted iff its trimmed title is longer
than five characters; admission depends on no other field; a 2-character
title `"OK"` is rejected, a 9-character title `"Six Chars"` is admitted,
and every other missing field degrades to the empty string rather than
dropping the record. -/
theorem c8_title_admission :
    (∀ c : RawContainer,
      (scrapeContainer c).isSome ↔ 5 < (trimS (c.titleText.getD "")).length) ∧
    (∀ c1 c2 : RawContainer, c1.titleText = c2.titleText →
      ((scrapeContainer c1).isSome ↔ (scrapeContainer c2).isSome)) ∧
    scrapeContainer ⟨some "OK", none, none, none, none⟩ = none ∧
    scrapeContainer ⟨some "Six Chars", none, none, none, none⟩
      = some ⟨"Six Chars", "", "", "", "", "", ""⟩ := by
  have h1 : ∀ c : RawContainer,
      (scrapeContainer c).isSome ↔ 5 < (trimS (c.titleText.getD "")).length := by
    intro c
    simp only [scrapeContainer, optTrim]
    split_ifs with h
    · simpa using h.2
    · simp only [Option.isSome_none, Bool.false_eq_true, false_iff]
      intro hlen
      refine h ⟨?_, hlen⟩
      intro he
      rw [he] at hlen
      simp at hlen
  refine ⟨h1, ?_, by rfl, by rfl⟩
  intro c1 c2 heq
  rw [h1 c1, h1 c2, heq]

theorem c8_title_admission_witness :
    ((scrapeContainer ⟨some "Six Chars", none, none, none, none⟩).isSome ↔
      5 < (trimS ((some "Six Chars" : Option String).getD "")).length) ∧
    ((scrapeContainer ⟨some "Six Chars", none, none, none, none⟩).isSome ↔
      (scrapeContainer
        ⟨some "Six Chars", some "u", some "a", some "b", some "c"⟩).isSome) :=
  ⟨c8_title_admission.1 ⟨some "Six Chars", none, none, none, none⟩,
   c8_title_admission.2.1 ⟨some "Six Chars", none, none, none, none⟩
     ⟨some "Six Chars", some "u", some "a", some "b", some "c"⟩ rfl⟩

/-! ## C9: the journal fallback chain -/

/-- Suffix after the last occurrence of the literal `pat`, or `none`
when `pat` does not occur. -/
def afterLast (pat : List Char) : List Char → Option (List Char)
  | [] => none
  | c :: rest =>
    match afterLast pat rest with
    | some r => some r
    | none =>
      if pat.isPrefixOf (c :: rest) then some ((c :: rest).drop pat.length)
      else none

/-- Claim C9 as stated: journal from the author/venue text via, in
order, the text after a trailing `" - "`, the text after a trailing
`", "`, and the text following `" in "`; first match wins, empty when
none match. -/
def specJournalC9 (authors : String) : String :=
  match afterLast " - ".data authors.data with
  | some r => trimS (String.mk r)
  | none =>
    match afterLast ", ".data authors.data with
    | some r => trimS (String.mk r)
    | none =>
      match splitFirst " in ".data authors.data with
      | some p => trimS (String.mk (p.2.takeWhile (· != ',')))
      | none => ""

/-- The proposition claimed by C9. -/
def claimC9 : Prop := ∀ a : String, extractJournal a = specJournalC9 a

/-- C9 counterexample: the author text `"Martin Smith"` contains none of
`" - "`, `", "`, `" in "`, so the claimed chain yields `""`; but the
code's third pattern matches the `in ` inside `Martin`, yielding
`"Smith"`. -/
theorem c9_counterexample : ¬ claimC9 := by
  intro h
  exact absurd (h "Martin Smith") (by decide)

/-- C9 as amended, first strategy and second strategy: the tail after
the last `sep` when that `sep` is followed by a space and the remaining
tail is non-empty (such a tail is automatically `sep`-free). -/
def lastSepTail (sep : Char) (s : List Char) : Option (List Char) :=
  match afterLast [sep] s with
  | none => none
  | some r =>
    if r.head? = some ' ' ∧ ¬ r.tail.isEmpty then some r.tail else none

/-- C9 as amended, third strategy at one position: the characters
`i`, `n`, space — which may start inside a word — followed by at least
one non-comma character; the capture is the maximal comma-free run. -/
def inWordCaptureAt (s : List Char) : Option (List Char) :=
  if s.head? = some 'i' ∧ s.tail.head? = some 'n'
      ∧ s.tail.tail.head? = some ' ' then
    let cap := s.tail.tail.tail.takeWhile (· != ',')
    if cap.isEmpty then none else some cap
  else none

/-- C9 as amended: dash-space tail-to-end, then comma-space tail-to-end,
then leftmost in-space (possibly mid-word); first success wins, capture
trimmed, empty when none succeed. -/
def specJournalC9Amended (authors : String) : String :=
  match lastSepTail '-' authors.data with
  | some cap => trimS (String.mk cap)
  | none =>
    match lastSepTail ',' authors.data with
    | some cap => trimS (String.mk cap)
    | none =>
      match scanFirst inWordCaptureAt authors.data with
      | some cap => trimS (String.mk cap)
      | none => ""

lemma afterLast_single_eq_none_iff (x : Char) :
    ∀ s : List Char, afterLast [x] s = none ↔ x ∉ s := by
  intro s
  induction s with
  | nil => simp [afterLast]
  | cons c rest ih =>
    rw [afterLast]
    cases hA : afterLast [x] rest with
    | some r =>
      have hx : x ∈ rest := by
        by_contra hx
        rw [ih.mpr hx] at hA
        cases hA
      simp [List.mem_cons, hx]
    | none =>
      have hx : x ∉ rest := ih.mp hA
      by_cases hxc : x = c
      · simp [List.isPrefixOf, hxc, List.mem_cons]
      · have : ([x].isPrefixOf (c :: rest)) = false := by
          simp [List.isPrefixOf, hxc]
        simp [this, List.mem_cons, hx, hxc]

lemma sepEndCapture_eq_none_of_not_mem (sep : Char) :
    ∀ s, sep ∉ s → sepEndCapture sep s = none := by
  intro s
  induction s with
  | nil => intro _; rfl
  | cons c rest ih =>
    intro h
    have hc : ¬ (c = sep) := by
      intro he
      exact h (he ▸ List.mem_cons_self c rest)
    have hrest : sep ∉ rest := fun hx => h (List.mem_cons_of_mem c hx)
    rw [sepEndCapture]
    have hguard : ¬ (c = sep ∧ rest.head? = some ' ') := fun hg => hc hg.1
    rw [if_neg hguard]
    exact ih hrest

lemma sepEndCapture_eq_lastSepTail (sep : Char) (hsep : sep ≠ ' ') :
    ∀ s, sepEndCapture sep s = lastSepTail sep s := by
  intro s
  induction s with
  | nil => rfl
  | cons c rest ih =>
    by_cases hmem : sep ∈ rest
    · obtain ⟨r, hA⟩ : ∃ r, afterLast [sep] rest = some r := by
        cases h' : afterLast [sep] rest with
        | some r => exact ⟨r, rfl⟩
        | none => exact absurd ((afterLast_single_eq_none_iff sep rest).mp h') (by simp [hmem])
      have hRT : lastSepTail sep (c :: rest) = lastSepTail sep rest := by
        unfold lastSepTail
        rw [afterLast, hA]
      rw [hRT, ← ih]
      rw [sepEndCapture]
      by_cases hguard : c = sep ∧ rest.head? = some ' '
      · rw [if_pos hguard]
        obtain ⟨hcs, hh⟩ := hguard
        have hmem' : sep ∈ rest.tail := by
          cases rest with
          | nil => cases hh
          | cons r0 rtail =>
            have hr0 : r0 = ' ' := by simpa using hh
            rcases List.mem_cons.mp hmem with h0 | h0
            · exact absurd (h0.trans hr0) hsep
            · simpa using h0
        have hall : rest.tail.all (· != sep) = false := by
          cases hb : rest.tail.all (· != sep) with
          | false => rfl
          | true =>
            have := List.all_eq_true.mp hb sep hmem'
            simp at this
        rw [hall]
        simp
      · rw [if_neg hguard]
    · have hAn : afterLast [sep] rest = none :=
        (afterLast_single_eq_none_iff sep rest).mpr hmem
      have hEn : sepEndCapture sep rest = none :=
        sepEndCapture_eq_none_of_not_mem sep rest hmem
      by_cases hc : c = sep
      · have hAc : afterLast [sep] (c :: rest) = some rest := by
          rw [afterLast, hAn]
          have : [sep].isPrefixOf (c :: rest) = true := by
            simp [List.isPrefixOf, hc]
          rw [this]
          simp
        rw [sepEndCapture]
        unfold lastSepTail
        rw [hAc]
        by_cases hh : rest.head? = some ' '
        · rw [if_pos ⟨hc, hh⟩]
          have hall : rest.tail.all (· != sep) = true := by
            apply List.all_eq_true.mpr
            intro x hx
            have hxr : x ∈ rest := by
              cases rest with
              | nil => cases hx
              | cons r0 rtail => exact List.mem_cons_of_mem r0 hx
            have : ¬ (x = sep) := fun he => hmem (he ▸ hxr)
            simpa using this
          rw [hall]
          cases hb : rest.tail.isEmpty with
          | true => simp [hb, hEn, hh]
          | false => simp [hb, hh]
        · have hguard : ¬ (c = sep ∧ rest.head? = some ' ') := fun hg => hh hg.2
          rw [if_neg hguard, hEn]
          simp [hh]
      · have hAc : afterLast [sep] (c :: rest) = none := by
          rw [afterLast, hAn]
          have : [sep].isPrefixOf (c :: rest) = false := by
            simp [List.isPrefixOf]
            exact fun he => hc he.symm
          rw [this]
          simp
        rw [sepEndCapture]
        have hguard : ¬ (c = sep ∧ rest.head? = some ' ') := fun hg => hc hg.1
        rw [if_neg hguard, hEn]
        unfold lastSepTail
        rw [hAc]

lemma inCapture_eq_scanFirst :
    ∀ s : List Char, inCapture s = scanFirst inWordCaptureAt s := by
  intro s
  induction s with
  | nil => rfl
  | cons c rest ih =>
    rw [inCapture, scanFirst]
    by_cases hguard : c = 'i' ∧ rest.head? = some 'n' ∧ rest.tail.head? = some ' '
    · rw [if_pos hguard]
      have hat : inWordCaptureAt (c :: rest)
          = (if (rest.tail.tail.takeWhile (· != ',')).isEmpty then none
             else some (rest.tail.tail.takeWhile (· != ','))) := by
        unfold inWordCaptureAt
        rw [if_pos (by simpa using hguard)]
        rfl
      rw [hat]
      cases hb : (rest.tail.tail.takeWhile (· != ',')).isEmpty with
      | true =>
        simp only [hb, Bool.not_true, Bool.false_eq_true, if_false, if_true]
        exact ih
      | false =>
        simp only [hb, Bool.not_false, if_true, Bool.false_eq_true, if_false]
    · rw [if_neg hguard]
      have hat : inWordCaptureAt (c :: rest) = none := by
        unfold inWordCaptureAt
        rw [if_neg (by simpa using hguard)]
      rw [hat]
      exact ih

/-- C9 (amended): the journal is obtained by trying, in order, the
dash-space strategy (tail after the last dash, when followed by a space
and non-empty to end of text), the comma-space strategy (same with the
last comma), and the leftmost `in ` occurrence — which may begin inside
a word — followed by a non-empty comma-free run; first success wins and
the result is trimmed, empty when none succeed. -/
theorem c9_journal_strategies :
    ∀ authors : String, extractJournal authors = specJournalC9Amended authors := by
  intro a
  unfold extractJournal specJournalC9Amended
  rw [sepEndCapture_eq_lastSepTail '-' (by decide) a.data,
      sepEndCapture_eq_lastSepTail ',' (by decide) a.data,
      inCapture_eq_scanFirst a.data]

/-! ## Health statistics (`getHealthIndicators`, World Bank API) -/

/-- The keyword-to-indicator table of `getHealthIndicators`, in
insertion order (keyword, code, name). -/
def healthIndicatorMap : List (String × String × String) :=
  [("life expectancy", "SP.DYN.LE00.IN", "Life expectancy at birth, total (years)"),
   ("mortality rate", "SP.DYN.IMRT.IN", "Mortality rate, infant (per 1,000 live births)"),
   ("infant mortality", "SP.DYN.IMRT.IN", "Mortality rate, infant (per 1,000 live births)"),
   ("birth rate", "SP.DYN.CBRT.IN", "Birth rate, crude (per 1,000 people)"),
   ("death rate", "SP.DYN.CDRT.IN", "Death rate, crude (per 1,000 people)"),
   ("population growth", "SP.POP.GROW", "Population growth (annual %)")]

/-- `[A-Z]` (the JavaScript class, exactly the ASCII uppercase range). -/
def isUpperAZ (c : Char) : Bool := c.isUpper

/-- `[A-Z0-9]`. -/
def isUpperOrDigit (c : Char) : Bool := c.isUpper || c.isDigit

/-- One dot-free part of the indicator-code pattern: `lo` to `hi`
characters of class `p`. -/
def partMatches (p : Char → Bool) (lo hi : Nat) (part : List Char) : Bool :=
  decide (lo ≤ part.length) && decide (part.length ≤ hi) && part.all p

/-- Embeds the World Bank indicator-code regex
`^[A-Z]{2} dot [A-Z]{2,4} dot [A-Z0-9]{2,8} (dot [A-Z0-9]{2})? $`:
since the dot separators cannot occur inside any class, the anchored
pattern matches exactly when splitting on dots yields three or four
parts of the right classes and lengths. -/
def matchesWBCode (s : String) : Bool :=
  match (s.split (fun c => c = '.')).map String.data with
  | [p1, p2, p3] =>
    partMatches isUpperAZ 2 2 p1 && partMatches isUpperAZ 2 4 p2
      && partMatches isUpperOrDigit 2 8 p3
  | [p1, p2, p3, p4] =>
    partMatches isUpperAZ 2 2 p1 && partMatches isUpperAZ 2 4 p2
      && partMatches isUpperOrDigit 2 8 p3 && partMatches isUpperOrDigit 2 2 p4
  | _ => false

/-- One data point of a World Bank response page, with the fields
`getHealthIndicators` reads. -/
structure WBItem where
  countryName : String
  countryId : String
  countryiso3code : Option String
  indicatorValue : String
  indicatorId : String
  date : String
  value : Option Int
  unit : Option String
deriving DecidableEq, Repr

/-- Body of a World Bank response: a JSON array of pages (element 0 is
metadata, element 1 the data page), any of which may be `null`; `none`
models a non-array or missing body. -/
structure WBResponse where
  body : Option (List (Option (List WBItem)))
deriving DecidableEq, Repr

/-- A normalized health-indicator point. -/
structure HealthIndicator where
  country : String
  countryCode : String
  indicator : String
  indicatorCode : String
  year : String
  value : Int
  unit : String
  source : String
deriving DecidableEq, Repr

/-- `getHealthIndicators` from `utils.ts`: keyword-containment lookup in
the indicator table (first entry wins), fallback to a literal World Bank
code when the query matches the code pattern, empty result without any
remote call otherwise; the response must be an array of length at least
two; points with a `null` value are filtered out; any failure is
swallowed into `[]`. -/
def getHealthIndicatorsT (http : Except Err WBResponse)
    (indicatorName : String) (country : Option String) :
    Tr (List HealthIndicator) :=
  let queryLower := indicatorName.toLower
  let mapped := healthIndicatorMap.find?
    (fun kv => containsSub kv.1.data queryLower.data)
  let indicatorInfo : Option (String × String) :=
    match mapped with
    | some kv => some (kv.2.1, kv.2.2)
    | none =>
      if matchesWBCode indicatorName then some (indicatorName, indicatorName)
      else none
  match indicatorInfo with
  | none => ⟨[], [], 0⟩
  | some _ =>
    match http with
    | .error _ => ⟨[], [], 1⟩
    | .ok r =>
      match r.body with
      | none => ⟨[], [], 1⟩
      | some pages =>
        if pages.length < 2 then ⟨[], [], 1⟩
        else
          let data := ((pages.get? 1).join).getD []
          ⟨(data.filter (fun i => i.value.isSome)).map (fun i =>
            { country := i.countryName
              countryCode :=
                match i.countryiso3code with
                | some code => if code = "" then i.countryId else code
                | none => i.countryId
              indicator := i.indicatorValue
              indicatorCode := i.indicatorId
              year := i.date
              value := i.value.getD 0
              unit := i.unit.getD ""
              source := "World Bank" }), [], 1⟩

/-! ## C4: error propagation across the acquisition operations -/

/-- The proposition claimed by C4 for the non-`searchDrugs` operations:
every one of them swallows a failing remote call and returns an empty
sequence. -/
def claimC4 : Prop :=
  (∀ e q l, (searchDrugsByActiveIngredientT (.error e) q l).result = []) ∧
  (∀ e q l, (searchDrugInteractionsT (.error e) q l).result = Except.ok []) ∧
  (∀ e ind c, (getHealthIndicatorsT (.error e) ind c).result = []) ∧
  (∀ e q, (searchRxNormDrugsT (.error e) q).result = []) ∧
  (∀ e e2 q m, (searchPubMedArticlesT (.error e) e2 q m).result = []) ∧
  (∀ r e q m, (searchPubMedArticlesT (.ok r) (.error e) q m).result = []) ∧
  (∀ env q, (∃ e, scholarSession env q = Except.error e) →
    searchGoogleScholar env q = []) ∧
  (∀ q f l (e : Err),
    (searchAdverseEventsT (fun _ => .error e) q f l).result = []) ∧
  (∀ e q l, (searchAdverseEventsByDrugT (.error e) q l).result = []) ∧
  (∀ e q l, (searchAdverseEventsByReactionT (.error e) q l).result = []) ∧
  (∀ e d l, (getSeriousAdverseEventsT (.error e) d l).result = [])

/-- C4 counterexample: `searchDrugInteractions` has no try/catch, so a
failing remote call propagates its error instead of producing `[]`. -/
theorem c4_counterexample : ¬ claimC4 := by
  intro h
  have hcon := h.2.1 ⟨some 500, "Internal Server Error"⟩ "warfarin" 10
  simp [searchDrugInteractionsT, Except.map] at hcon

/-- C4 (amended): every acquisition operation other than `searchDrugs`
and `searchDrugInteractions` swallows a failing remote call and returns
an empty sequence; `searchDrugInteractions` propagates the raw error
unchanged; `searchDrugs` alone propagates a typed failure carrying the
original error plus the query, selected field, constructed search
expression and endpoint URL. -/
theorem c4_error_propagation :
    (∀ e q l, (searchDrugsByActiveIngredientT (.error e) q l).result = []) ∧
    (∀ e ind c, (getHealthIndicatorsT (.error e) ind c).result = []) ∧
    (∀ e q, (searchRxNormDrugsT (.error e) q).result = []) ∧
    (∀ e e2 q m, (searchPubMedArticlesT (.error e) e2 q m).result = []) ∧
    (∀ r e q m, (searchPubMedArticlesT (.ok r) (.error e) q m).result = []) ∧
    (∀ env q, (∃ e, scholarSession env q = Except.error e) →
      searchGoogleScholar env q = []) ∧
    (∀ http q f l oe,
      (retryFDAApiCall (fun n => (http n).map eventResults) 3 1000).result
        = Except.error oe →
      (searchAdverseEventsT http q f l).result = []) ∧
    (∀ e q l, (searchAdverseEventsByDrugT (.error e) q l).result = []) ∧
    (∀ e q l, (searchAdverseEventsByReactionT (.error e) q l).result = []) ∧
    (∀ e d l, (getSeriousAdverseEventsT (.error e) d l).result = []) ∧
    (∀ e q l, (searchDrugInteractionsT (.error e) q l).result
      = Except.error e) ∧
    (∀ http q l sf oe,
      (retryFDAApiCall (fun n => (http n).map fdaResults) 3 1000).result
        = Except.error oe →
      (searchDrugsT http q l sf).result = Except.error
        ⟨ctxMessage oe, oe,
         ⟨q, sf, buildSearchQuery q sf, l,
          FDA_API_BASE ++ "/drug/label.json", true⟩⟩) := by
  refine ⟨fun e q l => rfl, ?_, fun e q => rfl, fun e e2 q m => rfl, ?_,
    ?_, ?_, fun e q l => rfl, fun e q l => rfl, fun e d l => rfl,
    fun e q l => rfl, ?_⟩
  · intro e ind c
    unfold getHealthIndicatorsT
    cases hinfo : (match healthIndicatorMap.find?
        (fun kv => containsSub kv.1.data ind.toLower.data) with
      | some kv => some (kv.2.1, kv.2.2)
      | none =>
        if matchesWBCode ind then some (ind, ind) else none :
        Option (String × String)) with
    | none => simp [hinfo]
    | some info => simp [hinfo]
  · intro r e q m
    unfold searchPubMedArticlesT
    cases hempty : ((r.esearchresult.bind ESearchResult.idlist).getD []).isEmpty
      <;> simp [hempty]
  · intro env q ⟨e, he⟩
    unfold searchGoogleScholar
    rw [he]
  · intro http q f l oe hres
    simp only [searchAdverseEventsT]
    rw [hres]
  · intro http q l sf oe hres
    simp only [searchDrugsT]
    rw [hres]

theorem c4_error_propagation_witness :
    searchGoogleScholar c3demoEnv "covid" = [] ∧
    (searchAdverseEventsT (fun _ => .error ⟨some 503, "Service Unavailable"⟩)
      "headache" "reactionmeddrapt" 10).result = [] ∧
    (searchDrugsT (fun _ => .error ⟨some 503, "Service Unavailable"⟩)
      "aspirin" 10 (some .brand_name)).result = Except.error
        ⟨"FDA API Error: Service Unavailable",
         some ⟨some 503, "Service Unavailable"⟩,
         ⟨"aspirin", some .brand_name, "openfda.brand_name:aspirin", 10,
          "https://api.fda.gov/drug/label.json", true⟩⟩ := by
  have h := c4_error_propagation
  refine ⟨h.2.2.2.2.2.1 c3demoEnv "covid"
    ⟨⟨none, "No search results found or page structure changed"⟩, rfl⟩, ?_, ?_⟩
  · exact h.2.2.2.2.2.2.1 (fun _ => .error ⟨some 503, "Service Unavailable"⟩)
      "headache" "reactionmeddrapt" 10
      (some ⟨some 503, "Service Unavailable"⟩) (by rfl)
  · exact h.2.2.2.2.2.2.2.2.2.2.2 (fun _ => .error ⟨some 503, "Service Unavailable"⟩)
      "aspirin" 10 (some .brand_name)
      (some ⟨some 503, "Service Unavailable"⟩) (by rfl)

/-! ## C5: which operations are wrapped in the backoff controller -/

/-- The proposition claimed by C5 for the adverse-events search: that it
is not wrapped in the backoff controller, i.e. never invokes its remote
call more than once. -/
def claimC5 : Prop :=
  ∀ (http : Nat → Except Err EventResponse) q f l,
    (searchAdverseEventsT http q f l).calls ≤ 1

/-- C5 counterexample: on a persistently failing endpoint (HTTP 503 on
every attempt) `searchAdverseEvents` invokes its remote call three
times — it is wrapped in `retryFDAApiCall` exactly like `searchDrugs`. -/
theorem c5_counterexample : ¬ claimC5 := by
  intro h
  have hcalls : (searchAdverseEventsT
      (fun _ => .error ⟨some 503, "Service Unavailable"⟩)
      "headache" "reactionmeddrapt" 10).calls = 3 := rfl
  have hle := h (fun _ => .error ⟨some 503, "Service Unavailable"⟩)
    "headache" "reactionmeddrapt" 10
  omega

/-- C5 (amended): exponential-backoff retry is applied on the
regulatory-drug-search path (`searchDrugs`) and on the adverse-events
search path (`searchAdverseEvents`) — both make exactly 3 attempts on a
persistently retryable failure — while every other acquisition
operation invokes each of its remote calls at most once. -/
theorem c5_backoff_scope :
    (∀ (http : Nat → Except Err FDAResponse) q l sf,
      (∀ n, 1 ≤ n → n ≤ 3 → ∃ e, http n = Except.error e ∧
        nonRetryable e = false) →
      (searchDrugsT http q l sf).calls = 3 ∧
      (searchDrugsT http q l sf).delays = [1000, 2000]) ∧
    (∀ (http : Nat → Except Err EventResponse) q f l,
      (∀ n, 1 ≤ n → n ≤ 3 → ∃ e, http n = Except.error e ∧
        nonRetryable e = false) →
      (searchAdverseEventsT http q f l).calls = 3 ∧
      (searchAdverseEventsT http q f l).delays = [1000, 2000]) ∧
    (∀ h q l, (searchDrugsByActiveIngredientT h q l).calls = 1) ∧
    (∀ h q l, (searchDrugInteractionsT h q l).calls = 1) ∧
    (∀ h n, (getDrugByNDCT h n).calls = 1) ∧
    (∀ h ind c, (getHealthIndicatorsT h ind c).calls ≤ 1) ∧
    (∀ h q, (searchRxNormDrugsT h q).calls = 1) ∧
    (∀ e1 e2 q m, (searchPubMedArticlesT e1 e2 q m).calls ≤ 2) ∧
    (∀ h q l, (searchAdverseEventsByDrugT h q l).calls = 1) ∧
    (∀ h q l, (searchAdverseEventsByReactionT h q l).calls = 1) ∧
    (∀ h d l, (getSeriousAdverseEventsT h d l).calls = 1) := by
  have hretry : ∀ {β : Type} (op : Nat → Except Err β),
      (∀ n, 1 ≤ n → n ≤ 3 → ∃ e, op n = Except.error e ∧
        nonRetryable e = false) →
      (retryFDAApiCall op 3 1000).calls = 3 ∧
      (retryFDAApiCall op 3 1000).delays = [1000, 2000] := by
    intro β op hfail
    obtain ⟨hc, hd, _, _, _⟩ := retryFDA_allFail op 3 1000 (by omega) hfail
    exact ⟨hc, by rw [hd]; rfl⟩
  refine ⟨?_, ?_, fun h q l => ?_, fun h q l => rfl, fun h n => ?_,
    ?_, fun h q => ?_, ?_, fun h q l => ?_, fun h q l => ?_, fun h d l => ?_⟩
  · intro http q l sf hfail
    have hmap : ∀ n, 1 ≤ n → n ≤ 3 →
        ∃ e, (http n).map fdaResults = Except.error e ∧
          nonRetryable e = false := by
      intro n h1 h2
      obtain ⟨e, he, hnr⟩ := hfail n h1 h2
      exact ⟨e, by rw [he]; rfl, hnr⟩
    obtain ⟨hc, hd⟩ := hretry (fun n => (http n).map fdaResults) hmap
    simp only [searchDrugsT]
    cases hres : (retryFDAApiCall (fun n => (http n).map fdaResults) 3 1000).result
      <;> simp only [hres] <;> exact ⟨hc, hd⟩
  · intro http q f l hfail
    have hmap : ∀ n, 1 ≤ n → n ≤ 3 →
        ∃ e, (http n).map eventResults = Except.error e ∧
          nonRetryable e = false := by
      intro n h1 h2
      obtain ⟨e, he, hnr⟩ := hfail n h1 h2
      exact ⟨e, by rw [he]; rfl, hnr⟩
    obtain ⟨hc, hd⟩ := hretry (fun n => (http n).map eventResults) hmap
    simp only [searchAdverseEventsT]
    cases hres : (retryFDAApiCall (fun n => (http n).map eventResults) 3 1000).result
      <;> simp only [hres] <;> exact ⟨hc, hd⟩
  · cases h <;> rfl
  · cases h <;> rfl
  · intro h ind c
    unfold getHealthIndicatorsT
    cases hinfo : (match healthIndicatorMap.find?
        (fun kv => containsSub kv.1.data ind.toLower.data) with
      | some kv => some (kv.2.1, kv.2.2)
      | none =>
        if matchesWBCode ind then some (ind, ind) else none :
        Option (String × String)) with
    | none => simp [hinfo]
    | some info =>
      cases h with
      | error e => simp [hinfo]
      | ok r =>
        cases hb : r.body with
        | none => simp [hinfo, hb]
        | some pages =>
          by_cases hlen : pages.length < 2 <;> simp [hinfo, hb, hlen]
  · cases h <;> rfl
  · intro e1 e2 q m
    unfold searchPubMedArticlesT
    cases e1 with
    | error e => simp
    | ok r =>
      cases hempty : ((r.esearchresult.bind ESearchResult.idlist).getD []).isEmpty
        <;> cases e2 <;> simp [hempty]
  · cases h <;> rfl
  · cases h <;> rfl
  · cases h <;> rfl

/-- A persistently failing FDA endpoint: witness input for C5. -/
def c5demoHttp : Nat → Except Err FDAResponse :=
  fun _ => Except.error ⟨some 503, "Service Unavailable"⟩

/-- A persistently failing adverse-events endpoint: witness input for
C5. -/
def c5demoEvHttp : Nat → Except Err EventResponse :=
  fun _ => Except.error ⟨some 503, "Service Unavailable"⟩

theorem c5_backoff_scope_witness :
    ((searchDrugsT c5demoHttp "aspirin" 10 none).calls = 3 ∧
      (searchDrugsT c5demoHttp "aspirin" 10 none).delays = [1000, 2000]) ∧
    ((searchAdverseEventsT c5demoEvHttp "headache" "reactionmeddrapt" 10).calls = 3 ∧
      (searchAdverseEventsT c5demoEvHttp "headache" "reactionmeddrapt" 10).delays
        = [1000, 2000]) ∧
    (searchDrugInteractionsT (.error ⟨some 503, "Service Unavailable"⟩)
      "warfarin" 10).calls = 1 := by
  have h := c5_backoff_scope
  refine ⟨h.1 c5demoHttp "aspirin" 10 none ?_,
    h.2.1 c5demoEvHttp "headache" "reactionmeddrapt" 10 ?_,
    h.2.2.2.1 (.error ⟨some 503, "Service Unavailable"⟩) "warfarin" 10⟩
  · intro n _ _
    exact ⟨⟨some 503, "Service Unavailable"⟩, rfl, by decide⟩
  · intro n _ _
    exact ⟨⟨some 503, "Service Unavailable"⟩, rfl, by decide⟩

end MedicalMcp
